import Mathlib

/-!
# Verification of the aperture/kirin authentication-and-minting core

Shallow embedding of the LSAT reverse proxy described in `spec.md`.
The repository source under scrutiny is `kirin.go` (process bootstrap,
configuration loading, etcd key namespace, proxy wiring, Tor listener).
The authentication core (SecretStore, Challenger, ServiceLimiter, Minter,
Authenticator) lives in packages whose source is not part of this tree;
those components are modelled from the spec, as marked on each definition.
-/

namespace Kirin

/-! ## Constants from kirin.go -/

/-- `topLevelKey` from kirin.go: the top level key for the etcd cluster
where all LSAT proxy related data is stored. -/
def topLevelKey : String := "lsat/proxy"

/-- `etcdKeyDelimeter` from kirin.go: the delimiter used for all etcd keys
to represent a path-like structure. -/
def etcdKeyDelimeter : String := "/"

/-! ## Configuration (fields of the `config` struct as used by kirin.go) -/

/-- Tor section of the configuration, as read by `start` and
`initTorListener` in kirin.go. -/
structure TorConfig where
  control : String
  listenPort : Nat
  virtualPort : Nat
  v2 : Bool
  v3 : Bool
deriving DecidableEq, Repr

/-- Etcd section of the configuration, as read by `start` in kirin.go. -/
structure EtcdConfig where
  host : String
  user : String
  password : String
deriving DecidableEq, Repr

/-- Service descriptor: name, capability set and price, static from the
configuration (`cfg.Services`), read-only to the core. -/
structure ServiceDescriptor where
  name : String
  capabilities : List String
  price : Nat
deriving DecidableEq, Repr

/-- The configuration record, with the fields kirin.go reads
(`ListenAddr`, `Etcd`, `Services`, `Tor`, `AutoCert`, `ServerName`,
`DebugLevel`, `StaticRoot`). -/
structure Config where
  listenAddr : String
  etcd : EtcdConfig
  services : List ServiceDescriptor
  tor : TorConfig
  autoCert : Bool
  serverName : String
  debugLevel : String
  staticRoot : String
deriving DecidableEq, Repr

/-- Errors `getConfig` in kirin.go can surface: the file read failing, the
YAML unmarshalling failing, or the missing-listen-address validation. -/
inductive ConfigError where
  | readError
  | parseError
  | missingListenAddr
deriving DecidableEq, Repr

/-- `getConfig` from kirin.go: read the file (read outcome given as
`readResult`), unmarshal the YAML (the external `yaml.Unmarshal` is the
function argument `parse`), then validate that `ListenAddr` is set.
No other field is checked. -/
def getConfig (readResult : Option String) (parse : String → Option Config) :
    Except ConfigError Config :=
  match readResult with
  | none => .error .readError
  | some b =>
    match parse b with
    | none => .error .parseError
    | some cfg =>
      if cfg.listenAddr = "" then .error .missingListenAddr else .ok cfg

/-! ## The Tor listener decision in `start` (kirin.go lines 163-180) -/

/-- An HTTP server as configured by `start`: its bind address and whether
it serves TLS. -/
structure HTTPServer where
  addr : String
  tls : Bool
deriving DecidableEq, Repr

/-- The onion-service branch of `start` in kirin.go: if `cfg.Tor.V2 ||
cfg.Tor.V3`, initialise the Tor controller (outcome abstracted as
`torInitOk`; on failure `start` returns the error and no listener runs)
and start a second, plain-HTTP (h2c) server bound to
`localhost:<cfg.Tor.ListenPort>`; otherwise no second server is started. -/
def startTorListener (cfg : Config) (torInitOk : Bool) :
    Except ConfigError (Option HTTPServer) :=
  if cfg.tor.v2 || cfg.tor.v3 then
    if torInitOk then
      .ok (some { addr := "localhost:" ++ toString cfg.tor.listenPort, tls := false })
    else .error .readError
  else .ok none

/-! ## Etcd key layout -/

/-- Modelled from the spec: the persisted layout inside the key-value
store is `<namespace>/rootkeys/<id>` for root-key records. The namespace
and delimiter are `topLevelKey` and `etcdKeyDelimeter` from kirin.go; the
key-building code itself lives outside this tree. -/
def rootKeyPath (id : String) : String :=
  topLevelKey ++ etcdKeyDelimeter ++ "rootkeys" ++ etcdKeyDelimeter ++ id

/-- Modelled from the spec: the persisted layout inside the key-value
store is `<namespace>/onion/<service-id>` for onion-service records
(the store handed to `tor.AddOnionConfig` by `initTorListener`). -/
def onionPath (serviceId : String) : String :=
  topLevelKey ++ etcdKeyDelimeter ++ "onion" ++ etcdKeyDelimeter ++ serviceId

/-- Modelled from the spec: the only durable state belonging to this core,
namely root-key records and onion-service records. -/
inductive DurableKey where
  | rootKey (id : String)
  | onion (serviceId : String)
deriving DecidableEq, Repr

/-- The etcd key under which a piece of durable state is stored. -/
def durableKeyPath : DurableKey → String
  | .rootKey id => rootKeyPath id
  | .onion sid => onionPath sid

/-! ## Challenger's settlement ledger

Modelled from the spec: the Challenger adapts an external payment backend.
A challenge is created unsettled and becomes settled exactly once when the
payment network reports the hash paid, yielding a preimage; a settled
challenge never reverts to unsettled. -/

/-- The per-hash payment state held by the payment backend. -/
inductive ChallengeState where
  | pending
  | settled (preimage : Nat)
deriving DecidableEq, Repr

/-- The payment ledger: payment hash to challenge state; `none` means the
hash was never issued. -/
def Ledger : Type := String → Option ChallengeState

/-- Modelled from the spec: the events the payment network can report —
a new invoice being issued for a hash, and a hash being paid (settled with
a preimage). Settlement happens exactly once; a later duplicate report
cannot change the recorded preimage, and issuance never clears a
settlement. -/
inductive PayEvent where
  | issue (hash : String)
  | settle (hash : String) (preimage : Nat)
deriving DecidableEq, Repr

/-- Apply one payment-network event to the ledger. -/
def applyEvent (L : Ledger) : PayEvent → Ledger
  | .issue h => fun h2 =>
      if h2 = h then some ((L h).getD .pending) else L h2
  | .settle h pre => fun h2 =>
      if h2 = h then
        some (match L h with
          | some (.settled p) => .settled p
          | _ => .settled pre)
      else L h2

/-- Apply a sequence of payment-network events, oldest first. -/
def applyEvents (L : Ledger) : List PayEvent → Ledger
  | [] => L
  | e :: es => applyEvents (applyEvent L e) es

/-- Errors of the modelled core, following the spec's taxonomy. -/
inductive AuthErr where
  | backendUnavailable
  | unknownService
  | notFound
  | paymentNotSettled
deriving DecidableEq, Repr

/-- Modelled from the spec: `Challenger.lookup(paymentHash)` reports
unsettled or settled(preimage), and fails with NotFound if the hash was
never issued. -/
def lookupPayment (L : Ledger) (h : String) : Except AuthErr ChallengeState :=
  match L h with
  | none => .error .notFound
  | some s => .ok s

/-! ## SecretStore -/

/-- Modelled from the spec: the replica-shared secret store, holding
root-key records indexed by a monotonic id, with a current id used for new
minting. The `avail` flag models reachability of the backing etcd
cluster. -/
structure SecretStore where
  avail : Bool
  current : Nat
  keys : Nat → Option Nat

/-- Modelled from the spec: `currentKey() -> (id, keyBytes)`; fails with
BackendUnavailable when the store is unreachable and NotFound when no key
record exists yet. -/
def currentKey (st : SecretStore) : Except AuthErr (Nat × Nat) :=
  if st.avail then
    match st.keys st.current with
    | some k => .ok (st.current, k)
    | none => .error .notFound
  else .error .backendUnavailable

/-- Modelled from the spec: `keyByID(id) -> keyBytes`, fails with NotFound
if absent and BackendUnavailable when the store is unreachable. -/
def keyByID (st : SecretStore) (id : Nat) : Except AuthErr Nat :=
  if st.avail then
    match st.keys id with
    | some k => .ok k
    | none => .error .notFound
  else .error .backendUnavailable

/-! ## Root-key creation race (SecretStore first call) -/

/-- A root key record: monotonic id plus the key bytes (abstracted to a
natural number). -/
structure RootKeyRec where
  id : Nat
  keyBytes : Nat
deriving DecidableEq, Repr

/-- Modelled from the spec: the store's native atomic conditional write —
create the record only if the slot is empty, otherwise leave the existing
record and hand it back. Returns the updated slot and the record the
caller ends up using. -/
def createIfAbsent (slot : Option RootKeyRec) (cand : RootKeyRec) :
    Option RootKeyRec × RootKeyRec :=
  match slot with
  | none => (some cand, cand)
  | some winner => (some winner, winner)

/-- Modelled from the spec: N first callers across replicas, each with its
own freshly generated candidate key, hitting the store one after the other
in some interleaving order (the store's conditional writes are atomic and
linearizable, so any concurrent execution is some such order). Returns the
final slot and, in order, the key each caller ends up using. -/
def runFirstCallers (slot : Option RootKeyRec) :
    List RootKeyRec → Option RootKeyRec × List RootKeyRec
  | [] => (slot, [])
  | c :: cs =>
    let r := createIfAbsent slot c
    let rest := runFirstCallers r.1 cs
    (rest.1, r.2 :: rest.2)

/-! ## The token codec (LSAT) -/

/-- A fixed expiry horizon from issuance, the spec's default policy for
the expiry caveat attached at mint time. -/
def defaultExpiryHorizon : Nat := 86400

/-- Modelled from the spec: the immutable token identifier — version,
payment hash, and a random token id. -/
structure Identifier where
  version : Nat
  paymentHash : String
  tokenId : Nat
deriving DecidableEq, Repr

/-- Modelled from the spec: the closed set of first-party caveats —
capability set, price tier, absolute expiry timestamp. -/
inductive Caveat where
  | capabilities (caps : List String)
  | priceTier (p : Nat)
  | expiry (t : Nat)
deriving DecidableEq, Repr

/-- Encode a string into a natural number for signing purposes. -/
def encStr (s : String) : Nat :=
  s.data.foldl (fun a c => Nat.pair a c.toNat) 1

/-- Encode a list of naturals into one natural. -/
def encList (l : List Nat) : Nat :=
  l.foldl Nat.pair 1

/-- Encode the token identifier for signing. -/
def encodeIdentifier (i : Identifier) : Nat :=
  Nat.pair i.version (Nat.pair (encStr i.paymentHash) i.tokenId)

/-- Encode one caveat for signing, with a tag per constructor. -/
def encodeCaveat : Caveat → Nat
  | .capabilities caps => Nat.pair 0 (encList (caps.map encStr))
  | .priceTier p => Nat.pair 1 p
  | .expiry t => Nat.pair 2 t

/-- Modelled from the spec: the HMAC-chain signature over identifier and
caveats, keyed by the root key — each caveat is folded into the running
MAC (the MAC itself abstracted as a pairing function). -/
def hmacChain (key idEnc : Nat) (cavs : List Nat) : Nat :=
  cavs.foldl Nat.pair (Nat.pair key idEnc)

/-- Modelled from the spec: an LSAT token — identifier, the generation id
of the root key that signed it, the ordered caveat sequence, and the
signature. -/
structure Token where
  id : Identifier
  keyId : Nat
  caveats : List Caveat
  sig : Nat
deriving DecidableEq, Repr

/-- The signature a verifier holding root key `key` recomputes for `t`. -/
def expectedSig (key : Nat) (t : Token) : Nat :=
  hmacChain key (encodeIdentifier t.id) (t.caveats.map encodeCaveat)

/-- Build the token minted for `paymentHash` under root key
`(keyId, key)`: fresh random `tokenId`, caveats carrying the service's
capabilities and price tier plus an absolute expiry a fixed horizon from
issuance, and the HMAC-chain signature. -/
def buildToken (keyId key : Nat) (paymentHash : String) (tokenId : Nat)
    (svc : ServiceDescriptor) (now : Nat) : Token :=
  let ident : Identifier :=
    { version := 0, paymentHash := paymentHash, tokenId := tokenId }
  let cavs : List Caveat :=
    [.capabilities svc.capabilities, .priceTier svc.price,
     .expiry (now + defaultExpiryHorizon)]
  { id := ident, keyId := keyId, caveats := cavs,
    sig := hmacChain key (encodeIdentifier ident) (cavs.map encodeCaveat) }

/-- A caveat sequence is expired at `now` when some expiry caveat lies
strictly in the past (now > expiry); caveats are ANDed. -/
def isExpired (now : Nat) (cavs : List Caveat) : Bool :=
  cavs.any fun c =>
    match c with
    | .expiry t => decide (t < now)
    | _ => false

/-- Every capability caveat must grant a superset of the capabilities the
target service requires; caveats are ANDed, and an empty required set is
trivially satisfied. -/
def capsSatisfied (required : List String) (cavs : List Caveat) : Bool :=
  cavs.all fun c =>
    match c with
    | .capabilities caps => required.all fun r => decide (r ∈ caps)
    | _ => true

/-! ## Minter -/

/-- An invoice request, the fields of `lnrpc.Invoice` that
`genInvoiceReq` in kirin.go populates. -/
structure Invoice where
  memo : String
  value : Nat
deriving DecidableEq, Repr

/-- `genInvoiceReq` from kirin.go (`start`, lines 73-78): the invoice
request generator handed to the challenger via `createProxy`. It takes no
arguments and always returns a fixed invoice with memo "LSAT" and value 1
(its Go error result is statically nil). -/
def genInvoiceReq : Invoice :=
  { memo := "LSAT", value := 1 }

/-- Modelled from the spec: a pending-invoice challenge. -/
structure Challenge where
  paymentHash : String
  paymentRequest : String
  amountMinor : Nat
  memo : String
  createdAt : Nat
deriving DecidableEq, Repr

/-- `newStaticServiceLimiter(cfg.Services)` wired by `createProxy` in
kirin.go; modelled from the spec: `limitsFor` maps a service name to its
static descriptor and is pure. `none` stands for UnknownService. -/
def limitsFor (services : List ServiceDescriptor) (name : String) :
    Option ServiceDescriptor :=
  services.find? fun s => s.name = name

/-- Modelled from the spec: issue a fresh challenge for a service. The
payment backend turns the invoice produced by `genInvoiceReq` (kirin.go)
into a payment request for a fresh payment hash (`freshHash`,
`freshReq`), and the 402 header also carries a macaroon-to-be for that
hash, minted with the current root key (which is why, per the spec's
scenario, this path too fails with BackendUnavailable when the
SecretStore is unreachable). -/
def newChallenge (st : SecretStore) (svc : ServiceDescriptor)
    (freshHash freshReq : String) (freshTokenId : Nat) (now : Nat) :
    Except AuthErr (Challenge × Token) :=
  match currentKey st with
  | .error e => .error e
  | .ok (keyId, key) =>
    let inv := genInvoiceReq
    .ok ({ paymentHash := freshHash, paymentRequest := freshReq,
           amountMinor := inv.value, memo := inv.memo, createdAt := now },
         buildToken keyId key freshHash freshTokenId svc now)

/-- Modelled from the spec: `Minter.challenge(serviceName)` — look up the
service with the ServiceLimiter (UnknownService if absent), then have the
Challenger create the invoice-backed challenge. -/
def minterChallenge (st : SecretStore) (services : List ServiceDescriptor)
    (serviceName : String) (freshHash freshReq : String)
    (freshTokenId : Nat) (now : Nat) :
    Except AuthErr (Challenge × Token × ServiceDescriptor) :=
  match limitsFor services serviceName with
  | none => .error .unknownService
  | some svc =>
    match newChallenge st svc freshHash freshReq freshTokenId now with
    | .error e => .error e
    | .ok (c, pt) => .ok (c, pt, svc)

/-- Modelled from the spec: `Minter.mint(paymentHash)` — look up
settlement via the Challenger (PaymentNotSettled while pending), fetch the
current root key from the SecretStore, and build a structurally fresh
signed token bound to the payment hash. -/
def mintToken (st : SecretStore) (L : Ledger) (svc : ServiceDescriptor)
    (paymentHash : String) (tokenId : Nat) (now : Nat) :
    Except AuthErr Token :=
  match lookupPayment L paymentHash with
  | .error e => .error e
  | .ok .pending => .error .paymentNotSettled
  | .ok (.settled _) =>
    match currentKey st with
    | .error e => .error e
    | .ok (keyId, key) =>
      .ok (buildToken keyId key paymentHash tokenId svc now)

/-! ## Authenticator -/

/-- The reject reasons of the spec's authorization taxonomy. -/
inductive Reason where
  | invalidSignature
  | expired
  | insufficientCapability
  | paymentRequired
deriving DecidableEq, Repr

/-- Modelled from the spec: `authorize(request) -> Decision`, Decision ∈
{Allow, Challenge(..), Reject(reason)}. The challenge decision carries
the fresh challenge and the macaroon-to-be placed in the 402 header. -/
inductive Decision where
  | allow
  | challenge (c : Challenge) (pendingToken : Token) (svc : ServiceDescriptor)
  | reject (r : Reason)
deriving DecidableEq, Repr

/-- Modelled from the spec, §4.5: the Authenticator's decision function.
The request is abstracted to its target service name and the presented
token (absent/unparseable → `none`); `now` is the clock, and `freshHash`,
`freshReq`, `freshTokenId` are the fresh randomness used if a new
challenge must be issued. Steps: resolve the service (UnknownService if
unknown); with no token, a free service (price 0) goes straight to Allow
and otherwise a fresh challenge is issued; with a token, check the
signature under the root key of the token's generation (a generation the
store does not know cannot verify, hence InvalidSignature), then expiry,
then capability coverage, then — unless the service is free — payment
settlement, collapsing an unsettled payment into Reject(PaymentRequired). -/
def authorize (st : SecretStore) (L : Ledger)
    (services : List ServiceDescriptor) (serviceName : String)
    (tok : Option Token) (now : Nat) (freshHash freshReq : String)
    (freshTokenId : Nat) : Except AuthErr Decision :=
  match limitsFor services serviceName with
  | none => .error .unknownService
  | some svc =>
    match tok with
    | none =>
      if svc.price = 0 then .ok .allow
      else
        match newChallenge st svc freshHash freshReq freshTokenId now with
        | .error e => .error e
        | .ok (c, pt) => .ok (.challenge c pt svc)
    | some t =>
      match keyByID st t.keyId with
      | .error .notFound => .ok (.reject .invalidSignature)
      | .error e => .error e
      | .ok key =>
        if t.sig ≠ expectedSig key t then .ok (.reject .invalidSignature)
        else if isExpired now t.caveats then .ok (.reject .expired)
        else if ¬ capsSatisfied svc.capabilities t.caveats then
          .ok (.reject .insufficientCapability)
        else if svc.price = 0 then .ok .allow
        else
          match lookupPayment L t.id.paymentHash with
          | .error e => .error e
          | .ok (.settled _) => .ok .allow
          | .ok .pending => .ok (.reject .paymentRequired)

/-! ## The HTTP boundary -/

/-- Modelled from the spec, §6: the outward HTTP-level outcome — forward
the request, a 402 carrying the challenge and the macaroon-to-be, or a
401/403-class authorization failure with a reason code. -/
inductive HttpResponse where
  | forward
  | paymentRequired402 (c : Challenge) (pendingToken : Token)
  | authFailure (r : Reason)
deriving DecidableEq, Repr

/-- Modelled from the spec: the transport layer's rendering of an
`authorize` decision. Allow forwards; a Challenge decision becomes a 402
with the challenge header; Reject(PaymentRequired) is rendered identically
to the fresh-challenge path — the client is re-challenged exactly as if it
had presented no token; the remaining rejects surface as 401/403 with
their reason. -/
def handleRequest (st : SecretStore) (L : Ledger)
    (services : List ServiceDescriptor) (serviceName : String)
    (tok : Option Token) (now : Nat) (freshHash freshReq : String)
    (freshTokenId : Nat) : Except AuthErr HttpResponse :=
  match authorize st L services serviceName tok now freshHash freshReq
      freshTokenId with
  | .error e => .error e
  | .ok .allow => .ok .forward
  | .ok (.challenge c pt _) => .ok (.paymentRequired402 c pt)
  | .ok (.reject .paymentRequired) =>
    match minterChallenge st services serviceName freshHash freshReq
        freshTokenId now with
    | .error e => .error e
    | .ok (c, pt, _) => .ok (.paymentRequired402 c pt)
  | .ok (.reject r) => .ok (.authFailure r)

/-! ## Decidable equality for Except results -/

instance {ε α : Type} [DecidableEq ε] [DecidableEq α] :
    DecidableEq (Except ε α) := fun x y =>
  match x, y with
  | .ok a, .ok b =>
    if h : a = b then isTrue (by rw [h])
    else isFalse (by intro hc; cases hc; exact h rfl)
  | .error a, .error b =>
    if h : a = b then isTrue (by rw [h])
    else isFalse (by intro hc; cases hc; exact h rfl)
  | .ok _, .error _ => isFalse (by intro hc; cases hc)
  | .error _, .ok _ => isFalse (by intro hc; cases hc)

/-! ## Concrete fixtures for witnesses and counterexamples -/

/-- A paid service from the spec's scenario: needs capability `call`,
price 100. -/
def meteredSvc : ServiceDescriptor :=
  { name := "metered-api", capabilities := ["call"], price := 100 }

/-- A free service (price 0, no capabilities), per the spec's free-service
scenario. -/
def freeSvc : ServiceDescriptor :=
  { name := "status", capabilities := [], price := 0 }

/-- A two-service configuration. -/
def services0 : List ServiceDescriptor := [meteredSvc, freeSvc]

/-- A reachable secret store holding one root key (generation 0, bytes
77). -/
def storeUp : SecretStore :=
  { avail := true, current := 0, keys := fun i => if i = 0 then some 77 else none }

/-- The same store while the etcd backend is unreachable. -/
def storeDown : SecretStore :=
  { avail := false, current := 0, keys := fun i => if i = 0 then some 77 else none }

/-- A ledger with one settled hash (preimage 9) and one still-pending
hash. -/
def ledger0 : Ledger := fun h =>
  if h = "hPaid" then some (.settled 9)
  else if h = "hPend" then some .pending
  else none

/-! ## C8: durable key layout -/

/-- C8: every key this core persists in the key-value store lies under the
fixed top-level namespace `topLevelKey` (= "lsat/proxy") followed by the
`/` delimiter; the durable state consists exactly of root-key records
(`lsat/proxy/rootkeys/<id>`) and onion-service records
(`lsat/proxy/onion/<service-id>`), the two constructors of `DurableKey`. -/
theorem durable_keys_namespaced :
    (∀ k : DurableKey, ∃ rest : String,
        durableKeyPath k = topLevelKey ++ etcdKeyDelimeter ++ rest) ∧
      (∀ id : String,
        durableKeyPath (.rootKey id) =
          "lsat/proxy" ++ "/" ++ "rootkeys" ++ "/" ++ id) ∧
      (∀ sid : String,
        durableKeyPath (.onion sid) =
          "lsat/proxy" ++ "/" ++ "onion" ++ "/" ++ sid) := by
  refine ⟨?_, fun id => rfl, fun sid => rfl⟩
  intro k
  cases k with
  | rootKey id => exact ⟨"rootkeys" ++ etcdKeyDelimeter ++ id, rfl⟩
  | onion sid => exact ⟨"onion" ++ etcdKeyDelimeter ++ sid, rfl⟩

/-! ## C2: the root-key creation race -/

theorem runFirstCallers_existing (w : RootKeyRec) (cs : List RootKeyRec) :
    runFirstCallers (some w) cs = (some w, cs.map fun _ => w) := by
  induction cs with
  | nil => rfl
  | cons c cs ih => simp [runFirstCallers, createIfAbsent, ih]

/-- C2: root-key creation is exactly-once fleet-wide. For any interleaving
order of N ≥ 1 concurrent first callers with candidate keys `c :: cs`
against an empty store (the store's conditional writes being atomic and
linearizable, every concurrent run is such an order), the store ends up
holding exactly the first writer's record `c`, and every caller —
including each loser of the create-if-absent race, which discards its own
candidate — ends up using that same record, so all callers converge on a
single key id and byte value. -/
theorem rootKey_created_exactly_once (c : RootKeyRec) (cs : List RootKeyRec) :
    runFirstCallers none (c :: cs) = (some c, (c :: cs).map fun _ => c) := by
  simp [runFirstCallers, createIfAbsent, runFirstCallers_existing]

/-! ## C6: settlement monotonicity -/

theorem applyEvent_settled (L : Ledger) (e : PayEvent) (h : String) (p : Nat)
    (hs : L h = some (.settled p)) :
    applyEvent L e h = some (.settled p) := by
  cases e with
  | issue h2 =>
    by_cases he : h = h2
    · subst he
      simp [applyEvent, hs]
    · simp [applyEvent, he, hs]
  | settle h2 pre =>
    by_cases he : h = h2
    · subst he
      simp [applyEvent, hs]
    · simp [applyEvent, he, hs]

/-- C6: settlement is monotonic per payment hash. Once
`Challenger.lookup` reports a hash settled with preimage `p`, it still
reports it settled with the same preimage after any further sequence of
payment-network events: a settled challenge never reverts to unsettled. -/
theorem settlement_monotonic (L : Ledger) (h : String) (p : Nat)
    (es : List PayEvent) (hs : lookupPayment L h = .ok (.settled p)) :
    lookupPayment (applyEvents L es) h = .ok (.settled p) := by
  induction es generalizing L with
  | nil => exact hs
  | cons e es ih =>
    have hL : L h = some (.settled p) := by
      unfold lookupPayment at hs
      cases hLh : L h with
      | none => rw [hLh] at hs; cases hs
      | some s => rw [hLh] at hs; cases hs; rfl
    show lookupPayment (applyEvents (applyEvent L e) es) h = .ok (.settled p)
    apply ih
    unfold lookupPayment
    rw [applyEvent_settled L e h p hL]

/-- C6 witness: a concretely settled hash stays settled with the same
preimage across a later issuance, a duplicate settle report and an
unrelated settlement. -/
theorem settlement_monotonic_witness :
    lookupPayment
        (applyEvents ledger0
          [.issue "hPaid", .settle "hPaid" 42, .settle "other" 3])
        "hPaid" = .ok (.settled 9) :=
  settlement_monotonic ledger0 "hPaid" 9
    [.issue "hPaid", .settle "hPaid" 42, .settle "other" 3] (by decide)

/-! ## C10: configuration validation -/

/-- C10: `getConfig` succeeds with cfg exactly when the file was readable,
the YAML unmarshalled to cfg, and `ListenAddr` is non-empty; equivalently,
it errors exactly when the read fails, the parse fails, or `ListenAddr`
is the empty string, and it inspects no other field (the etcd host,
services map and authenticator settings of the parsed value are
unconstrained). -/
theorem getConfig_ok_iff (r : Option String) (p : String → Option Config)
    (cfg : Config) :
    getConfig r p = .ok cfg ↔
      (∃ b, r = some b ∧ p b = some cfg) ∧ cfg.listenAddr ≠ "" := by
  constructor
  · intro h
    cases r with
    | none => simp [getConfig] at h
    | some b =>
      cases hp : p b with
      | none => rw [getConfig, hp] at h; cases h
      | some c =>
        rw [getConfig, hp] at h
        dsimp only at h
        by_cases hl : c.listenAddr = ""
        · rw [if_pos hl] at h; cases h
        · rw [if_neg hl] at h
          cases h
          exact ⟨⟨b, rfl, hp⟩, hl⟩
  · rintro ⟨⟨b, hb, hpb⟩, hne⟩
    subst hb
    rw [getConfig, hpb]
    dsimp only
    rw [if_neg hne]

/-- C10 witness: a concrete successful load — readable file, parse
producing a config whose other fields are arbitrary, non-empty listen
address — and the failure of the same parse when the listen address is
emptied. -/
theorem getConfig_ok_iff_witness :
    getConfig (some "yaml")
        (fun _ => some
          { listenAddr := "0.0.0.0:8081",
            etcd := { host := "", user := "", password := "" },
            services := [], autoCert := false, serverName := "",
            debugLevel := "", staticRoot := "",
            tor := { control := "", listenPort := 0, virtualPort := 0,
                     v2 := false, v3 := false } }) =
      .ok
        { listenAddr := "0.0.0.0:8081",
          etcd := { host := "", user := "", password := "" },
          services := [], autoCert := false, serverName := "",
          debugLevel := "", staticRoot := "",
          tor := { control := "", listenPort := 0, virtualPort := 0,
                   v2 := false, v3 := false } } :=
  (getConfig_ok_iff (some "yaml") _ _).mpr
    ⟨⟨"yaml", rfl, rfl⟩, by decide⟩

/-! ## C9: the onion-service listener -/

/-- C9: in a successful `start`, the second plain-HTTP listener exists if
and only if a Tor onion service (v2 or v3) is configured, and when it
exists it is bound to `localhost:<cfg.Tor.ListenPort>` without TLS — so it
is reachable only through the onion services and not exposed directly. -/
theorem tor_listener_iff (cfg : Config) (torInitOk : Bool)
    (res : Option HTTPServer)
    (h : startTorListener cfg torInitOk = .ok res) :
    (res.isSome = (cfg.tor.v2 || cfg.tor.v3)) ∧
      ∀ srv, res = some srv →
        srv.addr = "localhost:" ++ toString cfg.tor.listenPort ∧
          srv.tls = false := by
  unfold startTorListener at h
  by_cases hc : (cfg.tor.v2 || cfg.tor.v3) = true
  · rw [if_pos hc] at h
    cases hok : torInitOk with
    | false => rw [hok] at h; simp at h
    | true =>
      rw [hok] at h
      simp only [if_true] at h
      cases h
      refine ⟨by simp [hc], ?_⟩
      intro srv hs
      cases hs
      exact ⟨rfl, rfl⟩
  · rw [if_neg hc] at h
    cases h
    have hfalse : (cfg.tor.v2 || cfg.tor.v3) = false := by
      cases hv : (cfg.tor.v2 || cfg.tor.v3) with
      | true => exact absurd hv hc
      | false => rfl
    refine ⟨by simp [hfalse], ?_⟩
    intro srv hs
    cases hs

/-- C9 witness: with Tor v3 configured and the controller up, the second
listener exists, is bound to localhost on the configured port, and serves
no TLS; the theorem applied to that concrete configuration and server. -/
theorem tor_listener_iff_witness :
    (some { addr := "localhost:8082", tls := false } :
        Option HTTPServer).isSome = (false || true) ∧
      ({ addr := "localhost:8082", tls := false } : HTTPServer).addr =
          "localhost:" ++ toString (8082 : Nat) ∧
        ({ addr := "localhost:8082", tls := false } : HTTPServer).tls =
          false :=
  ⟨(tor_listener_iff
      { listenAddr := "0.0.0.0:8081",
        etcd := { host := "", user := "", password := "" },
        services := [], autoCert := false, serverName := "",
        debugLevel := "", staticRoot := "",
        tor := { control := "localhost:9051", listenPort := 8082,
                 virtualPort := 8082, v2 := false, v3 := true } }
      true (some { addr := "localhost:8082", tls := false }) (by decide)).1,
    (tor_listener_iff
      { listenAddr := "0.0.0.0:8081",
        etcd := { host := "", user := "", password := "" },
        services := [], autoCert := false, serverName := "",
        debugLevel := "", staticRoot := "",
        tor := { control := "localhost:9051", listenPort := 8082,
                 virtualPort := 8082, v2 := false, v3 := true } }
      true (some { addr := "localhost:8082", tls := false }) (by decide)).2
      { addr := "localhost:8082", tls := false } rfl⟩

/-! ## C1: the challenge amount -/

/-- C1 counterexample: for the spec's scenario service "metered-api" with
price 100, the challenge issued by the Minter carries amountMinor 1 — the
fixed value of `genInvoiceReq` in kirin.go — not the ServiceLimiter price
100, refuting the claim that amountMinor equals `limitsFor(s).price`. -/
theorem challenge_amount_not_price :
    (limitsFor services0 "metered-api").map ServiceDescriptor.price =
        some 100 ∧
      (minterChallenge storeUp services0 "metered-api" "hNew" "lnbc1" 7
            50).map (fun r => r.1.amountMinor) = .ok 1 ∧
      ¬((minterChallenge storeUp services0 "metered-api" "hNew" "lnbc1" 7
            50).map (fun r => r.1.amountMinor) = .ok 100) :=
  ⟨by decide, by decide, by decide⟩

/-- C1 (amended): every challenge the Minter issues carries amountMinor
equal to the value of the invoice produced by `genInvoiceReq`, which is
the constant 1 regardless of the service's configured price — so the
amount is fixed by the proxy (never chosen by the client: `authorize` and
`minterChallenge` take no client-supplied amount), but it is not the
ServiceLimiter price. -/
theorem challenge_amount_fixed (st : SecretStore)
    (services : List ServiceDescriptor)
    (serviceName freshHash freshReq : String) (freshTokenId now : Nat)
    (c : Challenge) (pt : Token) (svc : ServiceDescriptor)
    (h : minterChallenge st services serviceName freshHash freshReq
        freshTokenId now = .ok (c, pt, svc)) :
    c.amountMinor = genInvoiceReq.value ∧ genInvoiceReq.value = 1 := by
  unfold minterChallenge at h
  cases hl : limitsFor services serviceName with
  | none => rw [hl] at h; cases h
  | some s =>
    rw [hl] at h
    dsimp only at h
    unfold newChallenge at h
    cases hk : currentKey st with
    | error e => rw [hk] at h; dsimp only at h; cases h
    | ok kk =>
      obtain ⟨keyId, key⟩ := kk
      rw [hk] at h
      dsimp only at h
      cases h
      exact ⟨rfl, rfl⟩

/-- C1 witness: the amended theorem applied to the concrete "metered-api"
challenge issued above. -/
theorem challenge_amount_fixed_witness :
    ({ paymentHash := "hNew", paymentRequest := "lnbc1", amountMinor := 1,
       memo := "LSAT", createdAt := 50 } : Challenge).amountMinor =
        genInvoiceReq.value ∧ genInvoiceReq.value = 1 :=
  challenge_amount_fixed storeUp services0 "metered-api" "hNew" "lnbc1" 7 50
    _ (buildToken 0 77 "hNew" 7 meteredSvc 50) meteredSvc rfl

/-! ## C7: backend unavailability -/

/-- C7 counterexample: with the SecretStore unreachable, a no-token
request to a free service (price 0) is Allowed outright — the spec's
free-service fast path consults no backend — so `authorize` does not fail
with BackendUnavailable on every request. (The Allow is not a false
authorization: the service is free.) -/
theorem store_down_free_allow :
    authorize storeDown ledger0 services0 "status" none 0 "h" "r" 0 =
        .ok .allow ∧
      authorize storeDown ledger0 services0 "status" none 0 "h" "r" 0 ≠
        .error .backendUnavailable :=
  ⟨by decide, by decide⟩

/-- C7 (amended): with the SecretStore unreachable, `authorize` on any
request targeting a known service with a non-zero price — with or without
a presented token — fails with BackendUnavailable (and in particular never
returns Allow); only the no-token fast path of a free service escapes,
and it performs no authorization that could be false. -/
theorem store_down_backendUnavailable (st : SecretStore) (L : Ledger)
    (services : List ServiceDescriptor) (serviceName : String)
    (tok : Option Token) (now : Nat) (freshHash freshReq : String)
    (freshTokenId : Nat) (svc : ServiceDescriptor)
    (hdown : st.avail = false)
    (hsvc : limitsFor services serviceName = some svc)
    (hpriced : svc.price ≠ 0) :
    authorize st L services serviceName tok now freshHash freshReq
        freshTokenId = .error .backendUnavailable := by
  unfold authorize
  rw [hsvc]
  dsimp only
  cases tok with
  | none =>
    rw [if_neg hpriced]
    unfold newChallenge currentKey
    rw [hdown]
    simp
  | some t =>
    unfold keyByID
    rw [hdown]
    simp

/-- C7 witness: the amended theorem at a concrete unreachable store and
the priced service, for a token-free request. -/
theorem store_down_backendUnavailable_witness :
    authorize storeDown ledger0 services0 "metered-api" none 0 "h" "r" 0 =
      .error .backendUnavailable :=
  store_down_backendUnavailable storeDown ledger0 services0 "metered-api"
    none 0 "h" "r" 0 meteredSvc rfl rfl (by decide)

/-! ## C4: expired tokens -/

/-- A token carrying a bogus signature and an already-past expiry
caveat. -/
def badSigExpiredTok : Token :=
  { id := { version := 0, paymentHash := "hPaid", tokenId := 1 },
    keyId := 0, caveats := [.expiry 5], sig := 0 }

/-- The same expired token, but correctly signed under root key 77. -/
def signedExpiredTok : Token :=
  { id := { version := 0, paymentHash := "hPaid", tokenId := 1 },
    keyId := 0, caveats := [.expiry 5],
    sig := hmacChain 77
      (encodeIdentifier { version := 0, paymentHash := "hPaid", tokenId := 1 })
      ([Caveat.expiry 5].map encodeCaveat) }

/-- C4 counterexample: a token whose expiry caveat is in the past (expiry
5, clock 10) but whose signature does not verify is rejected with
InvalidSignature, not Expired — the signature check runs first, so the
expired token is not Rejected(Expired) \"regardless of whether the
signature verifies\". -/
theorem expired_bad_sig_rejected_as_invalid :
    isExpired 10 badSigExpiredTok.caveats = true ∧
      authorize storeUp ledger0 services0 "metered-api"
          (some badSigExpiredTok) 10 "h" "r" 0 =
        .ok (.reject .invalidSignature) ∧
      authorize storeUp ledger0 services0 "metered-api"
          (some badSigExpiredTok) 10 "h" "r" 0 ≠
        .ok (.reject .expired) :=
  ⟨by decide, by decide, by decide⟩

/-- C4 (amended): a presented token whose expiry caveat is in the past is
always Rejected when the store is reachable and the target service known —
with Reject(Expired) when its signature verifies under the referenced root
key, and Reject(InvalidSignature) otherwise, since the signature check
precedes the expiry check. -/
theorem expired_token_rejected (st : SecretStore) (L : Ledger)
    (services : List ServiceDescriptor) (serviceName : String) (t : Token)
    (now : Nat) (freshHash freshReq : String) (freshTokenId : Nat)
    (svc : ServiceDescriptor) (key : Nat)
    (hup : st.avail = true)
    (hsvc : limitsFor services serviceName = some svc)
    (hkey : st.keys t.keyId = some key)
    (hexp : isExpired now t.caveats = true) :
    authorize st L services serviceName (some t) now freshHash freshReq
        freshTokenId =
      .ok (.reject (if t.sig = expectedSig key t then .expired
                    else .invalidSignature)) := by
  unfold authorize
  rw [hsvc]
  dsimp only
  unfold keyByID
  rw [hup, hkey]
  simp only [if_true]
  by_cases hs : t.sig = expectedSig key t
  · rw [if_neg (fun hc => hc hs), if_pos hexp, if_pos hs]
  · rw [if_pos hs, if_neg hs]

/-- C4 witness: the amended theorem at the correctly signed, expired
token; the signature verifies, so the decision is Reject(Expired). -/
theorem expired_token_rejected_witness :
    authorize storeUp ledger0 services0 "metered-api"
        (some signedExpiredTok) 10 "h" "r" 0 =
      .ok (.reject (if signedExpiredTok.sig = expectedSig 77 signedExpiredTok
                    then .expired else .invalidSignature)) :=
  expired_token_rejected storeUp ledger0 services0 "metered-api"
    signedExpiredTok 10 "h" "r" 0 meteredSvc 77 rfl rfl rfl (by decide)

/-! ## C3: mint-then-verify round trip -/

/-- C3: every token successfully returned by `Minter.mint` verifies
immediately afterwards against the same SecretStore and ledger state:
`authorize` on it Allows, with no false negative right after minting. -/
theorem mint_then_verify (st : SecretStore) (L : Ledger)
    (services : List ServiceDescriptor) (serviceName : String)
    (svc : ServiceDescriptor) (paymentHash : String) (tokenId now : Nat)
    (freshHash freshReq : String) (freshTokenId : Nat) (t : Token)
    (hsvc : limitsFor services serviceName = some svc)
    (hmint : mintToken st L svc paymentHash tokenId now = .ok t) :
    authorize st L services serviceName (some t) now freshHash freshReq
        freshTokenId = .ok .allow := by
  unfold mintToken at hmint
  cases hlk : lookupPayment L paymentHash with
  | error e => rw [hlk] at hmint; dsimp only at hmint; cases hmint
  | ok s =>
    rw [hlk] at hmint
    cases s with
    | pending => cases hmint
    | settled pre =>
      cases hck : currentKey st with
      | error e => rw [hck] at hmint; dsimp only at hmint; cases hmint
      | ok kk =>
        obtain ⟨keyId, key⟩ := kk
        rw [hck] at hmint
        dsimp only at hmint
        cases hmint
        have hup : st.avail = true := by
          by_contra hna
          unfold currentKey at hck
          rw [if_neg hna] at hck
          cases hck
        have hkid : st.current = keyId ∧ st.keys st.current = some key := by
          unfold currentKey at hck
          rw [if_pos hup] at hck
          cases hkk : st.keys st.current with
          | none => rw [hkk] at hck; cases hck
          | some k =>
            rw [hkk] at hck
            injection hck with h2
            injection h2 with ha hb
            exact ⟨ha, by rw [hb]⟩
        obtain ⟨ha, hb⟩ := hkid
        unfold authorize

        rw [hsvc]
        dsimp only
        unfold keyByID
        dsimp only [buildToken]
        rw [hup, ← ha, hb]
        simp only [if_true]
        rw [if_neg (fun hc => hc rfl)]
        have hexp : isExpired now
            [Caveat.capabilities svc.capabilities, .priceTier svc.price,
             .expiry (now + defaultExpiryHorizon)] = false := by
          simp [isExpired]
        have hcaps : capsSatisfied svc.capabilities
            [Caveat.capabilities svc.capabilities, .priceTier svc.price,
             .expiry (now + defaultExpiryHorizon)] = true := by
          simp [capsSatisfied]
        rw [if_neg (fun hc => by rw [hexp] at hc; cases hc)]
        rw [if_neg (fun hc => hc hcaps)]
        by_cases hp0 : svc.price = 0
        · rw [if_pos hp0]
        · rw [if_neg hp0]
          rw [hlk]

/-- C3 witness: a token minted for the settled hash against the live
store immediately authorizes the same service. -/
theorem mint_then_verify_witness :
    authorize storeUp ledger0 services0 "metered-api"
        (some (buildToken 0 77 "hPaid" 5 meteredSvc 1000)) 1000 "hF" "rF" 9 =
      .ok .allow :=
  mint_then_verify storeUp ledger0 services0 "metered-api" meteredSvc
    "hPaid" 5 1000 "hF" "rF" 9 (buildToken 0 77 "hPaid" 5 meteredSvc 1000)
    rfl rfl

/-! ## C5: unsettled token collapses into the no-token path -/

/-- A structurally valid token (correct signature under root key 77,
unexpired, carrying capability `call`) bound to the still-pending payment
hash. -/
def pendTok : Token :=
  { id := { version := 0, paymentHash := "hPend", tokenId := 2 },
    keyId := 0,
    caveats := [.capabilities ["call"], .priceTier 100, .expiry 99999],
    sig := hmacChain 77
      (encodeIdentifier { version := 0, paymentHash := "hPend", tokenId := 2 })
      ([Caveat.capabilities ["call"], .priceTier 100,
        .expiry 99999].map encodeCaveat) }

/-- C5: a request presenting a structurally valid token (signature
verifies, unexpired, sufficient capabilities) whose bound payment hash is
unsettled produces, at the HTTP boundary, exactly the response of the same
request with no token at all: for a priced service both are re-challenged
with the identical fresh 402, and for a free service both are forwarded —
the unsettled-token and absent-token cases collapse into one outcome. -/
theorem unsettled_token_same_as_no_token (st : SecretStore) (L : Ledger)
    (services : List ServiceDescriptor) (serviceName : String) (t : Token)
    (now : Nat) (freshHash freshReq : String) (freshTokenId : Nat)
    (svc : ServiceDescriptor) (key : Nat)
    (hsvc : limitsFor services serviceName = some svc)
    (hup : st.avail = true)
    (hkey : st.keys t.keyId = some key)
    (hsig : t.sig = expectedSig key t)
    (hnexp : isExpired now t.caveats = false)
    (hcaps : capsSatisfied svc.capabilities t.caveats = true)
    (hpend : lookupPayment L t.id.paymentHash = .ok .pending) :
    handleRequest st L services serviceName (some t) now freshHash freshReq
        freshTokenId =
      handleRequest st L services serviceName none now freshHash freshReq
        freshTokenId := by
  have hauth_t : authorize st L services serviceName (some t) now freshHash
      freshReq freshTokenId =
        if svc.price = 0 then .ok .allow
        else .ok (.reject .paymentRequired) := by
    unfold authorize
    rw [hsvc]
    dsimp only
    unfold keyByID
    rw [hup, hkey]
    simp only [if_true]
    rw [if_neg (fun hc => hc hsig)]
    rw [if_neg (fun hc => by rw [hnexp] at hc; cases hc)]
    rw [if_neg (fun hc => hc hcaps)]
    by_cases hp0 : svc.price = 0
    · rw [if_pos hp0, if_pos hp0]
    · rw [if_neg hp0, if_neg hp0, hpend]
  have hauth_n : authorize st L services serviceName none now freshHash
      freshReq freshTokenId =
        if svc.price = 0 then .ok .allow
        else
          match newChallenge st svc freshHash freshReq freshTokenId now with
          | .error e => .error e
          | .ok (c, pt) => .ok (.challenge c pt svc) := by
    unfold authorize
    rw [hsvc]
  by_cases hp0 : svc.price = 0
  · unfold handleRequest
    rw [hauth_t, hauth_n, if_pos hp0, if_pos hp0]
  · unfold handleRequest
    rw [hauth_t, hauth_n, if_neg hp0, if_neg hp0]
    unfold minterChallenge
    rw [hsvc]
    dsimp only
    cases hnc : newChallenge st svc freshHash freshReq freshTokenId now with
    | error e => rfl
    | ok cp =>
      obtain ⟨c, pt⟩ := cp
      rfl

/-- C5 witness: the concrete pending-hash token against "metered-api" is
answered exactly like the token-free request. -/
theorem unsettled_token_same_as_no_token_witness :
    handleRequest storeUp ledger0 services0 "metered-api" (some pendTok)
        100 "hF" "rF" 9 =
      handleRequest storeUp ledger0 services0 "metered-api" none
        100 "hF" "rF" 9 :=
  unsettled_token_same_as_no_token storeUp ledger0 services0 "metered-api"
    pendTok 100 "hF" "rF" 9 meteredSvc 77 rfl rfl rfl rfl (by decide)
    (by decide) rfl

end Kirin

